import Mathlib

/-!
Verification of the ConectaN board-game core (src/main.py).

The board is a list of rows, each row a list of cells; a cell holds one of
the numeric constants CASILLA_VACIA (0), FICHA_CIRCULO (1), FICHA_EQUIS (2),
exactly as in the Python source.  Python's in-place mutation is modelled by
explicit state passing: `colocar_ficha` and `fichas_en_linea` return the
resulting board next to their Python return value.  Python's `random.choice`
is modelled as an oracle parameter `choice : List Nat → Nat`; theorems that
need it assume only that `choice` picks a member of a nonempty list.
The unbounded `while` loop of `contar_fichas_direccion` is modelled with a
fuel argument `numFilas tb + numCols tb`; for every direction the game ever
uses (the four axes and their negations) this fuel is proved sufficient, so
the fuelled function agrees with the Python loop.
-/

namespace ConectaN

abbrev Board := List (List Nat)

def CASILLA_VACIA : Nat := 0

def FICHA_CIRCULO : Nat := 1

def FICHA_EQUIS : Nat := 2

/-- `len(tablero)` -/
def numFilas (tb : Board) : Nat := tb.length

/-- `len(tablero[0]) if len(tablero) > 0 else 0` -/
def numCols (tb : Board) : Nat := (tb.getD 0 []).length

/-- `tablero[f][c]` (reads under the source's bounds guards, so the default
is never reached on guarded paths). -/
def getCell (tb : Board) (f c : Nat) : Nat := (tb.getD f []).getD c CASILLA_VACIA

/-- `tablero[f][c] = v` -/
def setCell (tb : Board) (f c v : Nat) : Board := tb.set f ((tb.getD f []).set c v)

/-- `crear_tablero(filas, columnas)`: `None` on invalid dimensions, else a
`filas × columnas` grid of `CASILLA_VACIA`. -/
def crear_tablero (filas columnas : Int) : Option Board :=
  if filas < 6 ∨ columnas < 7 then none
  else some (List.replicate filas.toNat (List.replicate columnas.toNat CASILLA_VACIA))

/-- The row scan `for fila in range(filas - 1, -1, -1): if tablero[fila][columna] == CASILLA_VACIA`
shared by `colocar_ficha` and `fichas_en_linea`: the first empty row counting
from the bottom. -/
def filaLibre (tb : Board) (c : Nat) : Option Nat :=
  ((List.range (numFilas tb)).reverse).find? (fun f => getCell tb f c == CASILLA_VACIA)

/-- `colocar_ficha(tablero, ficha, columna)`: Python returns a bool and
mutates `tablero`; here the pair (returned bool, board after the call). -/
def colocar_ficha (tb : Board) (ficha : Nat) (columna : Int) : Bool × Board :=
  if tb.isEmpty then (false, tb)
  else if columna < 0 ∨ (numCols tb : Int) ≤ columna then (false, tb)
  else if ficha ≠ FICHA_CIRCULO ∧ ficha ≠ FICHA_EQUIS then (false, tb)
  else
    match filaLibre tb columna.toNat with
    | some fila => (true, setCell tb fila columna.toNat ficha)
    | none => (false, tb)

/-- The `while` condition of `contar_fichas_direccion`:
`0 <= fila_actual < filas and 0 <= col_actual < columnas and tablero[fila_actual][col_actual] == ficha`. -/
def enLinea (tb : Board) (ficha : Nat) (f c : Int) : Prop :=
  0 ≤ f ∧ f < (numFilas tb : Int) ∧ 0 ≤ c ∧ c < (numCols tb : Int) ∧
    getCell tb f.toNat c.toNat = ficha

instance decEnLinea (tb : Board) (ficha : Nat) (f c : Int) : Decidable (enLinea tb ficha f c) := by
  unfold enLinea; exact inferInstance

/-- The `while` loop of `contar_fichas_direccion`, with fuel. -/
def contarAux (tb : Board) (ficha : Nat) (df dc : Int) : Nat → Int → Int → Nat
  | 0, _, _ => 0
  | fuel + 1, f, c =>
    if enLinea tb ficha f c then contarAux tb ficha df dc fuel (f + df) (c + dc) + 1 else 0

/-- `contar_fichas_direccion(tablero, fila, columna, ficha, dir_fila, dir_col)`.
The fuel `numFilas tb + numCols tb` is proved sufficient for every direction
with a nonzero component (all directions the game uses). -/
def contar_fichas_direccion (tb : Board) (fila columna : Int) (ficha : Nat)
    (dir_fila dir_col : Int) : Nat :=
  if tb.isEmpty then 0
  else contarAux tb ficha dir_fila dir_col (numFilas tb + numCols tb)
    (fila + dir_fila) (columna + dir_col)

/-- The four axis directions checked by the game. -/
def direcciones : List (Int × Int) := [(0, 1), (1, 0), (1, 1), (1, -1)]

/-- `comprobar_linea(tablero, columna, numero_fichas_linea)`. -/
def comprobar_linea (tb : Board) (columna numero_fichas_linea : Int) : Bool :=
  if tb.isEmpty then false
  else if columna < 0 ∨ (numCols tb : Int) ≤ columna then false
  else if numero_fichas_linea < 1 then false
  else
    match (List.range (numFilas tb)).find?
        (fun f => getCell tb f columna.toNat != CASILLA_VACIA) with
    | none => false
    | some fila =>
      direcciones.any (fun d =>
        decide (numero_fichas_linea ≤
          1 + (contar_fichas_direccion tb ↑fila columna
                 (getCell tb fila columna.toNat) d.1 d.2 : Int)
            + (contar_fichas_direccion tb ↑fila columna
                 (getCell tb fila columna.toNat) (-d.1) (-d.2) : Int)))

/-- `fichas_en_linea(tablero, ficha, columna)`: Python returns an int after a
temporary write and restore on `tablero`; here the pair (returned int, board
after the call). -/
def fichas_en_linea (tb : Board) (ficha : Nat) (columna : Int) : Nat × Board :=
  if tb.isEmpty then (0, tb)
  else if columna < 0 ∨ (numCols tb : Int) ≤ columna then (0, tb)
  else if ficha ≠ FICHA_CIRCULO ∧ ficha ≠ FICHA_EQUIS then (0, tb)
  else
    match filaLibre tb columna.toNat with
    | none => (0, tb)
    | some fila =>
      let tb1 := setCell tb fila columna.toNat ficha
      let maximo := direcciones.foldl (fun m d =>
        max m (1 + contar_fichas_direccion tb1 ↑fila columna ficha d.1 d.2
                 + contar_fichas_direccion tb1 ↑fila columna ficha (-d.1) (-d.2))) 0
      (maximo, setCell tb1 fila columna.toNat CASILLA_VACIA)

/-- `hay_casillas_libres(tablero)` -/
def hay_casillas_libres (tb : Board) : Bool :=
  if tb.isEmpty then false
  else tb.any (fun fila => fila.contains CASILLA_VACIA)

/-- `columna_esta_disponible(tablero, columna)` -/
def columna_esta_disponible (tb : Board) (columna : Int) : Bool :=
  if tb.isEmpty then false
  else if columna < 0 ∨ (numCols tb : Int) ≤ columna then false
  else getCell tb 0 columna.toNat == CASILLA_VACIA

/-- `obtener_columnas_disponibles(tablero)` -/
def obtener_columnas_disponibles (tb : Board) : List Nat :=
  if tb.isEmpty then []
  else (List.range (numCols tb)).filter (fun col => columna_esta_disponible tb ↑col)

/-- `ia_nivel_1(tablero)`, with `random.choice` as the oracle `choice`. -/
def ia_nivel_1 (choice : List Nat → Nat) (tb : Board) : Int :=
  let disp := obtener_columnas_disponibles tb
  if disp.isEmpty then -1 else ↑(choice disp)

/-- One iteration of rule 3 of `ia_nivel_2`: update `(mejor_columna, max_fichas)`
with column `col`. -/
def regla3_paso (tb : Board) (ficha_ia : Nat) (acc : List Nat × Nat) (col : Nat) :
    List Nat × Nat :=
  let fichas := (fichas_en_linea tb ficha_ia ↑col).1
  if acc.2 < fichas then ([col], fichas)
  else if fichas = acc.2 then (acc.1 ++ [col], acc.2)
  else acc

/-- `ia_nivel_2(tablero, ficha_ia, ficha_jugador, numero_fichas_linea)`, with
`random.choice` as the oracle `choice`.  `fichas_en_linea` is applied to the
original board throughout, which agrees with the Python threading of the
mutated-and-restored board by the frame theorem proved below. -/
def ia_nivel_2 (choice : List Nat → Nat) (tb : Board) (ficha_ia ficha_jugador : Nat)
    (numero_fichas_linea : Int) : Int :=
  let disp := obtener_columnas_disponibles tb
  if disp.isEmpty then -1
  else
    match disp.find? (fun col : Nat =>
        decide (numero_fichas_linea ≤ ((fichas_en_linea tb ficha_ia ↑col).1 : Int))) with
    | some col => ↑col
    | none =>
      match disp.find? (fun col : Nat =>
          decide (numero_fichas_linea ≤ ((fichas_en_linea tb ficha_jugador ↑col).1 : Int))) with
      | some col => ↑col
      | none =>
        let mm := disp.foldl (regla3_paso tb ficha_ia) ([], 0)
        if mm.1 ≠ [] ∧ 0 < mm.2 then ↑(choice mm.1) else ↑(choice disp)

/-- Apply a sequence of placements (piece, column), keeping only the board. -/
def aplicarMovimientos (movs : List (Nat × Int)) (tb : Board) : Board :=
  movs.foldl (fun b m => (colocar_ficha b m.1 m.2).2) tb

/-- A well-formed `filas × columnas` board. -/
def EsTablero (tb : Board) (filas columnas : Nat) : Prop :=
  tb.length = filas ∧ 0 < filas ∧ 0 < columnas ∧ ∀ fila ∈ tb, fila.length = columnas

instance decEsTablero (tb : Board) (filas columnas : Nat) :
    Decidable (EsTablero tb filas columnas) := by
  unfold EsTablero; exact inferInstance

/-- `[a, b]` is the maximal contiguous interval of offsets `k` around `0` for
which the cell at `(fila + k·df, col + k·dc)` is in bounds and holds `ficha`. -/
def IsMaxRun (tb : Board) (ficha : Nat) (fila col df dc : Int) (a b : Int) : Prop :=
  a ≤ 0 ∧ 0 ≤ b ∧
  (∀ k, a ≤ k → k ≤ b → enLinea tb ficha (fila + k * df) (col + k * dc)) ∧
  ¬ enLinea tb ficha (fila + (a - 1) * df) (col + (a - 1) * dc) ∧
  ¬ enLinea tb ficha (fila + (b + 1) * df) (col + (b + 1) * dc)

/-- The empty 6 × 7 board, used in concrete instances. -/
def tableroVacio : Board := List.replicate 6 (List.replicate 7 CASILLA_VACIA)

/-- A 6 × 7 board whose column 0 is completely full, used in concrete instances. -/
def tableroColumna0Llena : Board :=
  List.replicate 6 (FICHA_CIRCULO :: List.replicate 6 CASILLA_VACIA)

/-- A 6 × 7 board with three circles on the bottom row (columns 0,1,2), used
in concrete instances. -/
def tableroTresEnLinea : Board :=
  [[0, 0, 0, 0, 0, 0, 0], [0, 0, 0, 0, 0, 0, 0], [0, 0, 0, 0, 0, 0, 0],
   [0, 0, 0, 0, 0, 0, 0], [0, 0, 0, 0, 0, 0, 0], [1, 1, 1, 0, 0, 0, 0]]

/-! ### Basic list-cell lemmas -/

lemma getD_set_self {α : Type} (l : List α) (c : Nat) (v d : α) (h : c < l.length) :
    (l.set c v).getD c d = v := by
  induction l generalizing c with
  | nil => simp at h
  | cons x xs ih =>
    cases c with
    | zero => simp
    | succ c => simpa using ih c (by simpa using h)

lemma getD_set_ne {α : Type} (l : List α) (c k : Nat) (v d : α) (h : k ≠ c) :
    (l.set c v).getD k d = l.getD k d := by
  induction l generalizing c k with
  | nil => simp
  | cons x xs ih =>
    cases c with
    | zero =>
      cases k with
      | zero => exact absurd rfl h
      | succ k => simp
    | succ c =>
      cases k with
      | zero => simp
      | succ k => simpa using ih c k (by omega)

lemma set_getD_self {α : Type} (l : List α) (c : Nat) (d : α) :
    l.set c (l.getD c d) = l := by
  induction l generalizing c with
  | nil => simp
  | cons x xs ih =>
    cases c with
    | zero => simp
    | succ c => simpa using ih c

lemma setCell_setCell (tb : Board) (f c v w : Nat) :
    setCell (setCell tb f c v) f c w = setCell tb f c w := by
  unfold setCell
  rcases Nat.lt_or_ge f tb.length with hf | hf
  · rw [getD_set_self _ _ _ _ (by simpa using hf), List.set_set, List.set_set]
  · rw [List.set_eq_of_length_le hf, List.set_eq_of_length_le hf]

lemma setCell_restore (tb : Board) (f c : Nat) (h : getCell tb f c = CASILLA_VACIA) :
    setCell tb f c CASILLA_VACIA = tb := by
  unfold setCell
  unfold getCell at h
  rw [← h, set_getD_self, set_getD_self]

lemma getCell_setCell_self (tb : Board) (f c v : Nat) (h1 : f < tb.length)
    (h2 : c < (tb.getD f []).length) : getCell (setCell tb f c v) f c = v := by
  unfold getCell setCell
  rw [getD_set_self _ _ _ _ (by simpa using h1), getD_set_self _ _ _ _ h2]

lemma getCell_setCell_ne (tb : Board) (f c v r k : Nat) (h : r ≠ f ∨ k ≠ c) :
    getCell (setCell tb f c v) r k = getCell tb r k := by
  unfold getCell setCell
  rcases Nat.lt_or_ge f tb.length with hf | hf
  · rcases h with h | h
    · rw [getD_set_ne _ _ _ _ _ h]
    · rcases Decidable.em (r = f) with rfl | hr
      · rw [getD_set_self _ _ _ _ (by simpa using hf), getD_set_ne _ _ _ _ _ h]
      · rw [getD_set_ne _ _ _ _ _ hr]
  · rw [List.set_eq_of_length_le hf]

/-! ### find? on ordered lists -/

lemma find?_rel {R : Nat → Nat → Prop} {p : Nat → Bool} {a : Nat} :
    ∀ {l : List Nat}, l.Pairwise R → l.find? p = some a →
      ∀ b ∈ l, p b = true → a = b ∨ R a b := by
  intro l
  induction l with
  | nil => intro _ h; simp at h
  | cons x xs ih =>
    intro hpw hf b hb hpb
    rcases List.pairwise_cons.mp hpw with ⟨hx, hxs⟩
    by_cases hpx : p x = true
    · rw [List.find?_cons_of_pos _ hpx] at hf
      injection hf with hf
      subst hf
      rcases List.mem_cons.mp hb with rfl | hb
      · exact Or.inl rfl
      · exact Or.inr (hx b hb)
    · rw [List.find?_cons_of_neg _ hpx] at hf
      rcases List.mem_cons.mp hb with rfl | hb
      · exact absurd hpb hpx
      · exact ih hxs hf b hb hpb

/-- The top-to-bottom scan `(List.range n).find?` finds the least index
satisfying `p`. -/
lemma find?_range_spec {n : Nat} {p : Nat → Bool} {a : Nat}
    (h : (List.range n).find? p = some a) :
    p a = true ∧ a < n ∧ ∀ b, b < a → p b = false := by
  refine ⟨List.find?_some h, List.mem_range.mp (List.mem_of_find?_eq_some h), ?_⟩
  intro b hb
  by_contra hpb
  have hpb' : p b = true := by
    cases hpbv : p b with
    | false => exact absurd hpbv hpb
    | true => rfl
  have hmem : b ∈ List.range n := List.mem_range.mpr (by
    have := List.mem_range.mp (List.mem_of_find?_eq_some h); omega)
  rcases find?_rel (List.pairwise_lt_range n) h b hmem hpb' with rfl | hlt
  · omega
  · omega

/-- The bottom-to-top scan `(List.range n).reverse.find?` finds the greatest
index satisfying `p`. -/
lemma find?_range_reverse_spec {n : Nat} {p : Nat → Bool} {a : Nat}
    (h : ((List.range n).reverse).find? p = some a) :
    p a = true ∧ a < n ∧ ∀ b, a < b → b < n → p b = false := by
  refine ⟨List.find?_some h, ?_, ?_⟩
  · have := List.mem_of_find?_eq_some h
    exact List.mem_range.mp (List.mem_reverse.mp this)
  · intro b hab hbn
    by_contra hpb
    have hpb' : p b = true := by
      cases hpbv : p b with
      | false => exact absurd hpbv hpb
      | true => rfl
    have hpw : ((List.range n).reverse).Pairwise (fun x y => y < x) :=
      List.pairwise_reverse.mpr (List.pairwise_lt_range n)
    have hmem : b ∈ (List.range n).reverse :=
      List.mem_reverse.mpr (List.mem_range.mpr hbn)
    rcases find?_rel hpw h b hmem hpb' with rfl | hlt
    · omega
    · omega

lemma find?_range_reverse_none {n : Nat} {p : Nat → Bool}
    (h : ((List.range n).reverse).find? p = none) : ∀ b, b < n → p b = false := by
  intro b hb
  have := List.find?_eq_none.mp h b (List.mem_reverse.mpr (List.mem_range.mpr hb))
  cases hpbv : p b with
  | false => rfl
  | true => exact absurd hpbv this

/-! ### filaLibre characterization -/

lemma filaLibre_some {tb : Board} {c fl : Nat} (h : filaLibre tb c = some fl) :
    getCell tb fl c = CASILLA_VACIA ∧ fl < numFilas tb ∧
      ∀ g, fl < g → g < numFilas tb → getCell tb g c ≠ CASILLA_VACIA := by
  unfold filaLibre at h
  rcases find?_range_reverse_spec h with ⟨hp, hlt, hmax⟩
  refine ⟨by simpa using hp, hlt, ?_⟩
  intro g hg hgn
  have := hmax g hg hgn
  simpa using this

lemma filaLibre_none {tb : Board} {c : Nat} (h : filaLibre tb c = none) :
    ∀ f, f < numFilas tb → getCell tb f c ≠ CASILLA_VACIA := by
  unfold filaLibre at h
  intro f hf
  have := find?_range_reverse_none h f hf
  simpa using this

lemma filaLibre_isSome {tb : Board} {c f : Nat} (hf : f < numFilas tb)
    (hcell : getCell tb f c = CASILLA_VACIA) : ∃ fl, filaLibre tb c = some fl := by
  cases hv : filaLibre tb c with
  | some fl => exact ⟨fl, rfl⟩
  | none => exact absurd hcell (filaLibre_none hv f hf)

lemma headD_mem : ∀ (l : List Nat), l ≠ [] → l.headD 0 ∈ l := by
  intro l hl
  cases l with
  | nil => exact absurd rfl hl
  | cons x xs => exact List.mem_cons_self x xs

/-! ### Well-formed boards -/

lemma esTablero_facts {tb : Board} {filas columnas : Nat}
    (hw : EsTablero tb filas columnas) :
    numFilas tb = filas ∧ numCols tb = columnas ∧ tb.isEmpty = false := by
  obtain ⟨hlen, hfpos, _, hrows⟩ := hw
  cases tb with
  | nil => simp [← hlen] at hfpos
  | cons r rs =>
    refine ⟨hlen, ?_, rfl⟩
    simpa [numCols] using hrows r (List.mem_cons_self r rs)

lemma esTablero_row_len {tb : Board} {filas columnas : Nat}
    (hw : EsTablero tb filas columnas) (f : Nat) (hf : f < filas) :
    (tb.getD f []).length = columnas := by
  obtain ⟨hlen, _, _, hrows⟩ := hw
  have hfl : f < tb.length := by omega
  rw [List.getD_eq_getElem _ _ hfl]
  exact hrows _ (List.getElem_mem hfl)

/-! ### Claim theorems -/

/-- Claim C1: `fichas_en_linea` (bestRunIfPlaced) leaves the board unchanged on
every exit path, for every board, piece and column (including out-of-range and
full columns): the board component of the result equals the input board. -/
theorem C1_fichas_en_linea_frame (tb : Board) (ficha : Nat) (columna : Int) :
    (fichas_en_linea tb ficha columna).2 = tb := by
  unfold fichas_en_linea
  split
  · rfl
  split
  · rfl
  split
  · rfl
  cases hv : filaLibre tb columna.toNat with
  | none => simp
  | some fila =>
    simp only
    rw [setCell_setCell, setCell_restore _ _ _ (filaLibre_some hv).1]

/-- Claim C6: `crear_tablero` fails (returns `none`) exactly when
`filas < 6` or `columnas < 7`; on success every cell of the produced grid is
`CASILLA_VACIA` and `hay_casillas_libres` holds. -/
theorem C6_crear_tablero (filas columnas : Int) :
    (crear_tablero filas columnas = none ↔ filas < 6 ∨ columnas < 7) ∧
    (∀ tb, crear_tablero filas columnas = some tb →
      tb.length = filas.toNat ∧ (∀ fila ∈ tb, fila.length = columnas.toNat) ∧
      (∀ fila ∈ tb, ∀ x ∈ fila, x = CASILLA_VACIA) ∧ hay_casillas_libres tb = true) := by
  unfold crear_tablero
  by_cases hbad : filas < 6 ∨ columnas < 7
  · simp only [if_pos hbad]
    exact ⟨by simp [hbad], by intro tb h; cases h⟩
  · simp only [if_neg hbad]
    push_neg at hbad
    constructor
    · simp [hbad]
    · intro tb h
      injection h with h
      subst h
      refine ⟨List.length_replicate _ _, ?_, ?_, ?_⟩
      · intro fila hfila
        rw [(List.mem_replicate.mp hfila).2]
        exact List.length_replicate _ _
      · intro fila hfila x hx
        rw [(List.mem_replicate.mp hfila).2] at hx
        exact (List.mem_replicate.mp hx).2
      · unfold hay_casillas_libres
        have hf0 : filas.toNat ≠ 0 := by omega
        have hc0 : columnas.toNat ≠ 0 := by omega
        rw [if_neg (by simp [List.isEmpty_iff, hf0])]
        rw [List.any_eq_true]
        refine ⟨List.replicate columnas.toNat CASILLA_VACIA,
          List.mem_replicate.mpr ⟨hf0, rfl⟩, ?_⟩
        rw [List.contains_eq_any_beq, List.any_eq_true]
        exact ⟨CASILLA_VACIA, List.mem_replicate.mpr ⟨hc0, rfl⟩, by simp⟩

/-- Claim C6 witness: at `filas = 6`, `columnas = 7` creation succeeds and
yields the all-empty 6-row, 7-column board with a free cell. -/
theorem C6_crear_tablero_witness :
    tableroVacio.length = (6 : Int).toNat ∧
    (∀ fila ∈ tableroVacio, fila.length = (7 : Int).toNat) ∧
    (∀ fila ∈ tableroVacio, ∀ x ∈ fila, x = CASILLA_VACIA) ∧
    hay_casillas_libres tableroVacio = true :=
  (C6_crear_tablero 6 7).2 tableroVacio (by decide)

/-- Claim C2, counterexample to the claim as stated: on the empty 6 × 7 board,
placing a circle in column 0 lands in row 5 (the lowest empty row), but the
function's Python return value is the boolean `True` (numeric value 1), not
the landing row index 5. -/
theorem C2_counterexample :
    (colocar_ficha tableroVacio FICHA_CIRCULO 0).1 = true ∧
    filaLibre tableroVacio 0 = some 5 ∧
    ((colocar_ficha tableroVacio FICHA_CIRCULO 0).1).toNat ≠ 5 := by decide

/-- Claim C2, amended: for every well-formed board and in-range column with at
least one empty cell, `colocar_ficha` with a valid piece succeeds, writes the
piece into the lowest empty row of the column (the largest empty row index),
leaves every other cell unchanged — but returns the boolean `true`, not the
landing row index. -/
theorem C2_colocar_ficha_exito (tb : Board) (filas columnas : Nat)
    (hw : EsTablero tb filas columnas) (ficha : Nat)
    (hficha : ficha = FICHA_CIRCULO ∨ ficha = FICHA_EQUIS)
    (columna : Nat) (hcol : columna < columnas)
    (hempty : ∃ f, f < filas ∧ getCell tb f columna = CASILLA_VACIA) :
    ∃ fl, fl < filas ∧ getCell tb fl columna = CASILLA_VACIA ∧
      (∀ g, fl < g → g < filas → getCell tb g columna ≠ CASILLA_VACIA) ∧
      colocar_ficha tb ficha ↑columna = (true, setCell tb fl columna ficha) ∧
      getCell (setCell tb fl columna ficha) fl columna = ficha ∧
      (∀ r k, r ≠ fl ∨ k ≠ columna →
        getCell (setCell tb fl columna ficha) r k = getCell tb r k) := by
  obtain ⟨hnf, hnc, hne⟩ := esTablero_facts hw
  have hlen : tb.length = filas := hw.1
  obtain ⟨f, hf, hcell⟩ := hempty
  obtain ⟨fl, hfl⟩ := filaLibre_isSome (c := columna) (by omega) hcell
  obtain ⟨hflcell, hflrange, hflmax⟩ := filaLibre_some hfl
  refine ⟨fl, by omega, hflcell, ?_, ?_, ?_, ?_⟩
  · intro g hg hgf
    exact hflmax g hg (by omega)
  · unfold colocar_ficha
    rw [if_neg (by simp [hne]), if_neg (by rw [hnc]; omega),
      if_neg (by rcases hficha with h | h <;> simp [h, FICHA_CIRCULO, FICHA_EQUIS])]
    rw [show (↑columna : Int).toNat = columna from Int.toNat_natCast columna, hfl]
  · exact getCell_setCell_self tb fl columna ficha (by omega)
      (by rw [esTablero_row_len hw fl (by omega)]; omega)
  · intro r k hrk
    exact getCell_setCell_ne tb fl columna ficha r k hrk

/-- Claim C2 witness: concrete successful placement on the empty 6 × 7 board. -/
theorem C2_colocar_ficha_exito_witness :
    ∃ fl, fl < 6 ∧ getCell tableroVacio fl 0 = CASILLA_VACIA ∧
      (∀ g, fl < g → g < 6 → getCell tableroVacio g 0 ≠ CASILLA_VACIA) ∧
      colocar_ficha tableroVacio FICHA_CIRCULO 0 = (true, setCell tableroVacio fl 0 FICHA_CIRCULO) ∧
      getCell (setCell tableroVacio fl 0 FICHA_CIRCULO) fl 0 = FICHA_CIRCULO ∧
      (∀ r k, r ≠ fl ∨ k ≠ 0 →
        getCell (setCell tableroVacio fl 0 FICHA_CIRCULO) r k = getCell tableroVacio r k) :=
  C2_colocar_ficha_exito tableroVacio 6 7 (by decide) FICHA_CIRCULO (Or.inl rfl) 0
    (by decide) ⟨5, by decide, by decide⟩

/-- `colocar_ficha` fails, untouched board, on an out-of-range column. -/
lemma colocar_ficha_fuera (tb : Board) (ficha : Nat) (columna : Int)
    (hrange : columna < 0 ∨ (numCols tb : Int) ≤ columna) :
    colocar_ficha tb ficha columna = (false, tb) := by
  unfold colocar_ficha
  by_cases he : tb.isEmpty = true
  · rw [if_pos he]
  · rw [if_neg he, if_pos hrange]

/-- `colocar_ficha` fails, untouched board, on an invalid piece. -/
lemma colocar_ficha_invalida (tb : Board) (ficha : Nat) (columna : Int)
    (hficha : ficha ≠ FICHA_CIRCULO ∧ ficha ≠ FICHA_EQUIS) :
    colocar_ficha tb ficha columna = (false, tb) := by
  unfold colocar_ficha
  by_cases he : tb.isEmpty = true
  · rw [if_pos he]
  rw [if_neg he]
  by_cases hr : columna < 0 ∨ (numCols tb : Int) ≤ columna
  · rw [if_pos hr]
  · rw [if_neg hr, if_pos hficha]

/-- `colocar_ficha` fails, untouched board, on a column with no empty cell. -/
lemma colocar_ficha_llena (tb : Board) (ficha : Nat) (columna : Int)
    (hfull : ∀ f, f < numFilas tb → getCell tb f columna.toNat ≠ CASILLA_VACIA) :
    colocar_ficha tb ficha columna = (false, tb) := by
  unfold colocar_ficha
  by_cases he : tb.isEmpty = true
  · rw [if_pos he]
  rw [if_neg he]
  by_cases hr : columna < 0 ∨ (numCols tb : Int) ≤ columna
  · rw [if_pos hr]
  rw [if_neg hr]
  by_cases hfi : ficha ≠ FICHA_CIRCULO ∧ ficha ≠ FICHA_EQUIS
  · rw [if_pos hfi]
  rw [if_neg hfi]
  cases hv : filaLibre tb columna.toNat with
  | none => simp [hv]
  | some fila =>
    obtain ⟨hcell, hrange, _⟩ := filaLibre_some hv
    exact absurd hcell (hfull fila hrange)

/-- `colocar_ficha` either reports success or returns `(false, tb)`. -/
lemma colocar_ficha_casos (tb : Board) (ficha : Nat) (columna : Int) :
    (colocar_ficha tb ficha columna).1 = true ∨
      colocar_ficha tb ficha columna = (false, tb) := by
  unfold colocar_ficha
  by_cases he : tb.isEmpty = true
  · rw [if_pos he]; exact Or.inr rfl
  rw [if_neg he]
  by_cases hr : columna < 0 ∨ (numCols tb : Int) ≤ columna
  · rw [if_pos hr]; exact Or.inr rfl
  rw [if_neg hr]
  by_cases hfi : ficha ≠ FICHA_CIRCULO ∧ ficha ≠ FICHA_EQUIS
  · rw [if_pos hfi]; exact Or.inr rfl
  rw [if_neg hfi]
  cases hv : filaLibre tb columna.toNat with
  | none => simp [hv]
  | some fila => simp [hv]

/-- Claim C3, counterexample to the claim as stated: the two failure modes are
not distinct typed errors — on a board whose column 0 is full, placing into the
full column 0 and placing into the out-of-range column -1 return the very same
value (`False` with the untouched board). -/
theorem C3_counterexample :
    colocar_ficha tableroColumna0Llena FICHA_EQUIS 0 =
      colocar_ficha tableroColumna0Llena FICHA_EQUIS (-1) ∧
    (colocar_ficha tableroColumna0Llena FICHA_EQUIS 0).1 = false := by decide

/-- Claim C3, amended: `colocar_ficha` fails (returns `False`, with no
distinction between the failure causes) both when the column is outside
`[0, columns)` and when every cell of the column is occupied, and every
failure leaves the board unchanged. -/
theorem C3_colocar_ficha_fallos (tb : Board) (ficha : Nat) (columna : Int) :
    ((columna < 0 ∨ (numCols tb : Int) ≤ columna) →
      colocar_ficha tb ficha columna = (false, tb)) ∧
    ((∀ f, f < numFilas tb → getCell tb f columna.toNat ≠ CASILLA_VACIA) →
      colocar_ficha tb ficha columna = (false, tb)) ∧
    ((colocar_ficha tb ficha columna).1 = false →
      (colocar_ficha tb ficha columna).2 = tb) := by
  refine ⟨fun h => colocar_ficha_fuera tb ficha columna h,
    fun h => colocar_ficha_llena tb ficha columna h, ?_⟩
  intro hfalse
  rcases colocar_ficha_casos tb ficha columna with h | h
  · rw [hfalse] at h; cases h
  · rw [h]

/-- Claim C3 witness: concrete out-of-range and full-column failures on the
board with a full column 0, each leaving the board unchanged. -/
theorem C3_colocar_ficha_fallos_witness :
    colocar_ficha tableroColumna0Llena FICHA_EQUIS (-1) = (false, tableroColumna0Llena) ∧
    colocar_ficha tableroColumna0Llena FICHA_EQUIS 0 = (false, tableroColumna0Llena) :=
  ⟨(C3_colocar_ficha_fallos tableroColumna0Llena FICHA_EQUIS (-1)).1 (by decide),
   (C3_colocar_ficha_fallos tableroColumna0Llena FICHA_EQUIS 0).2.1 (by decide)⟩

/-- `colocar_ficha` never changes an occupied cell. -/
lemma colocar_preserva_ocupadas (tb : Board) (ficha : Nat) (columna : Int) (r k : Nat)
    (h : getCell tb r k ≠ CASILLA_VACIA) :
    getCell (colocar_ficha tb ficha columna).2 r k = getCell tb r k := by
  unfold colocar_ficha
  split
  · rfl
  split
  · rfl
  split
  · rfl
  cases hv : filaLibre tb columna.toNat with
  | none => rfl
  | some fila =>
    simp only
    by_cases hr : r = fila ∧ k = columna.toNat
    · obtain ⟨rfl, rfl⟩ := hr
      exact absurd (filaLibre_some hv).1 h
    · rcases Decidable.not_and_iff_or_not.mp hr with hr | hr
      · exact getCell_setCell_ne tb fila columna.toNat ficha r k (Or.inl hr)
      · exact getCell_setCell_ne tb fila columna.toNat ficha r k (Or.inr hr)

/-- No sequence of placements ever changes an occupied cell. -/
lemma aplicar_preserva_ocupadas :
    ∀ (movs : List (Nat × Int)) (tb : Board) (r k : Nat),
      getCell tb r k ≠ CASILLA_VACIA →
      getCell (aplicarMovimientos movs tb) r k = getCell tb r k := by
  intro movs
  induction movs with
  | nil => intro tb r k _; rfl
  | cons m ms ih =>
    intro tb r k h
    unfold aplicarMovimientos
    rw [List.foldl_cons]
    have h1 := colocar_preserva_ocupadas tb m.1 m.2 r k h
    have h2 : getCell (colocar_ficha tb m.1 m.2).2 r k ≠ CASILLA_VACIA := by
      rw [h1]; exact h
    calc getCell (List.foldl (fun b mv => (colocar_ficha b mv.1 mv.2).2)
            (colocar_ficha tb m.1 m.2).2 ms) r k
        = getCell (colocar_ficha tb m.1 m.2).2 r k := ih (colocar_ficha tb m.1 m.2).2 r k h2
      _ = getCell tb r k := h1

/-- Claim C10: a non-empty cell never changes value.  `colocar_ficha` rejects
any piece other than `FICHA_CIRCULO`/`FICHA_EQUIS` (in particular
`CASILLA_VACIA`) leaving the board untouched; it only succeeds with a valid
piece; it never rewrites an occupied cell; and under any sequence of
placements an occupied cell keeps its value forever (the query operations
`comprobar_linea`, `hay_casillas_libres`, `columna_esta_disponible`,
`obtener_columnas_disponibles` are pure functions of the board in this
embedding, so they perform no writes by construction). -/
theorem C10_celdas_monotonas (tb : Board) (ficha : Nat) (columna : Int) :
    ((ficha ≠ FICHA_CIRCULO ∧ ficha ≠ FICHA_EQUIS) →
      colocar_ficha tb ficha columna = (false, tb)) ∧
    ((colocar_ficha tb ficha columna).1 = true →
      ficha = FICHA_CIRCULO ∨ ficha = FICHA_EQUIS) ∧
    (∀ r k, getCell tb r k ≠ CASILLA_VACIA →
      getCell (colocar_ficha tb ficha columna).2 r k = getCell tb r k) ∧
    (∀ (movs : List (Nat × Int)) (r k : Nat), getCell tb r k ≠ CASILLA_VACIA →
      getCell (aplicarMovimientos movs tb) r k = getCell tb r k) := by
  refine ⟨fun hficha => colocar_ficha_invalida tb ficha columna hficha, ?_,
    fun r k h => colocar_preserva_ocupadas tb ficha columna r k h,
    fun movs r k h => aplicar_preserva_ocupadas movs tb r k h⟩
  intro htrue
  by_contra hcon
  push_neg at hcon
  rw [colocar_ficha_invalida tb ficha columna hcon] at htrue
  cases htrue

/-- Claim C10 witness: concrete instances — placing the piece value 0
(`CASILLA_VACIA`) is rejected without touching the board, and the occupied
cell (0,0) of the full-column board survives a placement and a two-placement
sequence. -/
theorem C10_celdas_monotonas_witness :
    colocar_ficha tableroVacio CASILLA_VACIA 0 = (false, tableroVacio) ∧
    getCell (colocar_ficha tableroColumna0Llena FICHA_EQUIS 1).2 0 0 =
      getCell tableroColumna0Llena 0 0 ∧
    getCell (aplicarMovimientos [(FICHA_EQUIS, 1), (FICHA_CIRCULO, 2)]
      tableroColumna0Llena) 0 0 = getCell tableroColumna0Llena 0 0 :=
  ⟨(C10_celdas_monotonas tableroVacio CASILLA_VACIA 0).1 (by decide),
   (C10_celdas_monotonas tableroColumna0Llena FICHA_EQUIS 1).2.2.1 0 0 (by decide),
   (C10_celdas_monotonas tableroColumna0Llena FICHA_EQUIS 1).2.2.2
     [(FICHA_EQUIS, 1), (FICHA_CIRCULO, 2)] 0 0 (by decide)⟩

/-- Claim C5: for every well-formed board, in-range column and
`numero_fichas_linea ≥ 1`, `comprobar_linea` returns `false` when the column is
entirely empty, and otherwise returns `true` exactly when, anchoring at the
topmost non-empty cell of the column, some of the four axes has total
`1 + countRun(forward) + countRun(backward)` (counting the anchor's piece) at
least the win length. -/
theorem C5_comprobar_linea (tb : Board) (filas columnas : Nat)
    (hw : EsTablero tb filas columnas) (columna : Nat) (hcol : columna < columnas)
    (n : Int) (hn : 1 ≤ n) :
    ((∀ f, f < filas → getCell tb f columna = CASILLA_VACIA) →
      comprobar_linea tb ↑columna n = false) ∧
    (comprobar_linea tb ↑columna n = true ↔
      ∃ fila, fila < filas ∧ getCell tb fila columna ≠ CASILLA_VACIA ∧
        (∀ g, g < fila → getCell tb g columna = CASILLA_VACIA) ∧
        ∃ d ∈ direcciones,
          n ≤ 1 + (contar_fichas_direccion tb ↑fila ↑columna
                    (getCell tb fila columna) d.1 d.2 : Int)
              + (contar_fichas_direccion tb ↑fila ↑columna
                    (getCell tb fila columna) (-d.1) (-d.2) : Int)) := by
  obtain ⟨hnf, hnc, hne⟩ := esTablero_facts hw
  unfold comprobar_linea
  rw [if_neg (by simp [hne]), if_neg (by rw [hnc]; omega), if_neg (by omega)]
  simp only [Int.toNat_natCast]
  cases hv : (List.range (numFilas tb)).find?
      (fun f => getCell tb f columna != CASILLA_VACIA) with
  | none =>
    have hall : ∀ f, f < filas → getCell tb f columna = CASILLA_VACIA := by
      intro f hf
      have := List.find?_eq_none.mp hv f (List.mem_range.mpr (by omega))
      simpa using this
    refine ⟨fun _ => rfl, ?_, ?_⟩
    · intro h; cases h
    · rintro ⟨fila, hfila, hcell, _, _⟩
      exact absurd (hall fila hfila) hcell
  | some fila =>
    obtain ⟨hp, hlt, hfirst⟩ := find?_range_spec hv
    have hcell : getCell tb fila columna ≠ CASILLA_VACIA := by simpa using hp
    have hempty : ∀ g, g < fila → getCell tb g columna = CASILLA_VACIA := by
      intro g hg
      have := hfirst g hg
      simpa using this
    constructor
    · intro hall
      exact absurd (hall fila (by omega)) hcell
    · rw [List.any_eq_true]
      constructor
      · rintro ⟨d, hd, hdec⟩
        exact ⟨fila, by omega, hcell, hempty, d, hd, by simpa using hdec⟩
      · rintro ⟨fila2, hf2, hcell2, hempty2, d, hd, hineq⟩
        have hff : fila2 = fila := by
          rcases Nat.lt_trichotomy fila2 fila with h | h | h
          · exact absurd (hempty fila2 h) hcell2
          · exact h
          · exact absurd (hempty2 fila h) hcell
        subst hff
        exact ⟨d, hd, by simpa using hineq⟩

/-- Claim C5 witness: on the fully empty board every column yields `false`
(instance: column 0, win length 4), and on the board with three circles at the
bottom of columns 0-2 the horizontal axis through the anchor of column 0
reaches 3, so `comprobar_linea` with win length 3 returns `true`. -/
theorem C5_comprobar_linea_witness :
    comprobar_linea tableroVacio 0 4 = false ∧
    comprobar_linea tableroTresEnLinea 0 3 = true :=
  ⟨(C5_comprobar_linea tableroVacio 6 7 (by decide) 0 (by decide) 4 (by decide)).1
      (by decide),
   (C5_comprobar_linea tableroTresEnLinea 6 7 (by decide) 0 (by decide) 3
      (by decide)).2.mpr
      ⟨5, by decide, by decide, by decide, (0, 1), by decide, by decide⟩⟩

/-! ### Characterization of the directional count -/

/-- Every step the loop counted satisfies the loop condition. -/
lemma contarAux_sound (tb : Board) (ficha : Nat) (df dc : Int) :
    ∀ (fuel : Nat) (f c : Int) (k : Nat), k < contarAux tb ficha df dc fuel f c →
      enLinea tb ficha (f + ↑k * df) (c + ↑k * dc) := by
  intro fuel
  induction fuel with
  | zero => intro f c k hk; simp [contarAux] at hk
  | succ fuel ih =>
    intro f c k hk
    simp only [contarAux] at hk
    by_cases h : enLinea tb ficha f c
    · rw [if_pos h] at hk
      cases k with
      | zero => simpa using h
      | succ k =>
        have hk2 : k < contarAux tb ficha df dc fuel (f + df) (c + dc) := by omega
        have hstep := ih (f + df) (c + dc) k hk2
        have heq1 : f + df + ↑k * df = f + ↑(k + 1) * df := by push_cast; ring
        have heq2 : c + dc + ↑k * dc = c + ↑(k + 1) * dc := by push_cast; ring
        rwa [heq1, heq2] at hstep
    · rw [if_neg h] at hk
      omega

/-- If the loop stopped before running out of fuel, the first uncounted step
fails the loop condition. -/
lemma contarAux_frontera (tb : Board) (ficha : Nat) (df dc : Int) :
    ∀ (fuel : Nat) (f c : Int) (m : Nat), contarAux tb ficha df dc fuel f c = m →
      m < fuel → ¬ enLinea tb ficha (f + ↑m * df) (c + ↑m * dc) := by
  intro fuel
  induction fuel with
  | zero => intro f c m _ hm; omega
  | succ fuel ih =>
    intro f c m hm hlt
    simp only [contarAux] at hm
    by_cases h : enLinea tb ficha f c
    · rw [if_pos h] at hm
      have hl2 : contarAux tb ficha df dc fuel (f + df) (c + dc) < fuel := by omega
      have hb := ih (f + df) (c + dc) _ rfl hl2
      have heq1 : f + df + ↑(contarAux tb ficha df dc fuel (f + df) (c + dc)) * df
          = f + ↑m * df := by rw [← hm]; push_cast; ring
      have heq2 : c + dc + ↑(contarAux tb ficha df dc fuel (f + df) (c + dc)) * dc
          = c + ↑m * dc := by rw [← hm]; push_cast; ring
      rwa [heq1, heq2] at hb
    · rw [if_neg h] at hm
      subst hm
      simpa using h

/-- If the loop never even starts, the count is zero. -/
lemma contarAux_cero (tb : Board) (ficha : Nat) (df dc : Int) (fuel : Nat) (f c : Int)
    (hfuel : 0 < fuel) (h : ¬ enLinea tb ficha f c) :
    contarAux tb ficha df dc fuel f c = 0 := by
  cases fuel with
  | zero => omega
  | succ fuel => simp only [contarAux]; rw [if_neg h]

/-- A walk with a nonzero stride that stays inside `[0, B)` takes at most `B`
steps. -/
lemma pasos_acotados (x : Int) {d B : Int} (hd : d ≠ 0) (hB : 0 ≤ B) {m : Nat}
    (h : ∀ k : Nat, k < m → 0 ≤ x + ↑k * d ∧ x + ↑k * d < B) : (m : Int) ≤ B := by
  cases m with
  | zero => simpa using hB
  | succ mm =>
    have h0 := h 0 (by omega)
    have hx0 : 0 ≤ x := by simpa using h0.1
    have hxB : x < B := by simpa using h0.2
    obtain ⟨hm0, hm1⟩ := h mm (by omega)
    rcases lt_or_gt_of_ne hd with hneg | hpos
    · have hp : (mm : Int) ≤ ↑mm * (-d) :=
        le_mul_of_one_le_right (Int.natCast_nonneg mm) (by omega)
      have hq : (mm : Int) * (-d) = -((mm : Int) * d) := by ring
      rw [hq] at hp
      have hx : (mm : Int) ≤ x := by linarith
      have : (mm : Int) < B := lt_of_le_of_lt hx hxB
      omega
    · have hp : (mm : Int) ≤ ↑mm * d :=
        le_mul_of_one_le_right (Int.natCast_nonneg mm) (by omega)
      have h2 : (mm : Int) ≤ x + ↑mm * d := by linarith
      have h3 : (mm : Int) < B := lt_of_le_of_lt h2 hm1
      omega

/-- With the fuel used by `contar_fichas_direccion` and a direction with a
nonzero component, the loop always stops strictly before the fuel runs out. -/
lemma contarAux_lt (tb : Board) (ficha : Nat) (df dc : Int) (f c : Int)
    (hdir : df ≠ 0 ∨ dc ≠ 0) (hf : 0 < numFilas tb) (hc : 0 < numCols tb) :
    contarAux tb ficha df dc (numFilas tb + numCols tb) f c
      < numFilas tb + numCols tb := by
  rcases hdir with hdf | hdc
  · have hbound : ((contarAux tb ficha df dc (numFilas tb + numCols tb) f c : Nat) : Int)
        ≤ (numFilas tb : Int) := by
      refine pasos_acotados f hdf (by positivity) ?_
      intro k hk
      have := contarAux_sound tb ficha df dc (numFilas tb + numCols tb) f c k hk
      exact ⟨this.1, this.2.1⟩
    omega
  · have hbound : ((contarAux tb ficha df dc (numFilas tb + numCols tb) f c : Nat) : Int)
        ≤ (numCols tb : Int) := by
      refine pasos_acotados c hdc (by positivity) ?_
      intro k hk
      have := contarAux_sound tb ficha df dc (numFilas tb + numCols tb) f c k hk
      exact ⟨this.2.2.1, this.2.2.2.1⟩
    omega

/-- `contar_fichas_direccion` counts an initial segment of matching cells one
step beyond the origin, and the cell right after the counted segment fails to
match (for directions with a nonzero component, on a nonempty board). -/
lemma contar_fichas_spec (tb : Board) (fila col : Int) (ficha : Nat) (df dc : Int)
    (hdir : df ≠ 0 ∨ dc ≠ 0) (hf : 0 < numFilas tb) (hc : 0 < numCols tb) :
    (∀ k : Nat, 1 ≤ k → k ≤ contar_fichas_direccion tb fila col ficha df dc →
      enLinea tb ficha (fila + ↑k * df) (col + ↑k * dc)) ∧
    ¬ enLinea tb ficha
        (fila + (↑(contar_fichas_direccion tb fila col ficha df dc) + 1) * df)
        (col + (↑(contar_fichas_direccion tb fila col ficha df dc) + 1) * dc) := by
  have hne : tb.isEmpty = false := by
    cases tb with
    | nil => simp [numFilas] at hf
    | cons r rs => rfl
  unfold contar_fichas_direccion
  rw [if_neg (by simp [hne])]
  constructor
  · intro k hk1 hk2
    have hk : k - 1 < contarAux tb ficha df dc (numFilas tb + numCols tb)
        (fila + df) (col + dc) := by omega
    have hstep := contarAux_sound tb ficha df dc _ (fila + df) (col + dc) (k - 1) hk
    have hcast : ((k - 1 : Nat) : Int) = ↑k - 1 := by omega
    have heq1 : fila + df + ↑(k - 1) * df = fila + ↑k * df := by rw [hcast]; ring
    have heq2 : col + dc + ↑(k - 1) * dc = col + ↑k * dc := by rw [hcast]; ring
    rwa [heq1, heq2] at hstep
  · have hlt := contarAux_lt tb ficha df dc (fila + df) (col + dc) hdir hf hc
    have hb := contarAux_frontera tb ficha df dc _ (fila + df) (col + dc) _ rfl hlt
    have heq1 : fila + df
        + ↑(contarAux tb ficha df dc (numFilas tb + numCols tb) (fila + df) (col + dc)) * df
        = fila + (↑(contarAux tb ficha df dc (numFilas tb + numCols tb)
            (fila + df) (col + dc)) + 1) * df := by ring
    have heq2 : col + dc
        + ↑(contarAux tb ficha df dc (numFilas tb + numCols tb) (fila + df) (col + dc)) * dc
        = col + (↑(contarAux tb ficha df dc (numFilas tb + numCols tb)
            (fila + df) (col + dc)) + 1) * dc := by ring
    rwa [heq1, heq2] at hb

/-- The maximal run interval through a fixed cell is unique. -/
lemma isMaxRun_unique (tb : Board) (ficha : Nat) (fila col df dc a b a2 b2 : Int)
    (h1 : IsMaxRun tb ficha fila col df dc a b)
    (h2 : IsMaxRun tb ficha fila col df dc a2 b2) : a = a2 ∧ b = b2 := by
  obtain ⟨ha1, hb1, hall1, hla1, hra1⟩ := h1
  obtain ⟨ha2, hb2, hall2, hla2, hra2⟩ := h2
  constructor
  · rcases Int.lt_trichotomy a a2 with h | h | h
    · exact absurd (hall1 (a2 - 1) (by omega) (by omega)) hla2
    · exact h
    · exact absurd (hall2 (a - 1) (by omega) (by omega)) hla1
  · rcases Int.lt_trichotomy b b2 with h | h | h
    · exact absurd (hall2 (b + 1) (by omega) (by omega)) hra1
    · exact h
    · exact absurd (hall1 (b2 + 1) (by omega) (by omega)) hra2

/-- Claim C7: `contar_fichas_direccion` starts one step beyond the origin and
returns 0 when the first stepped-to cell fails to match; it never counts the
origin; and for every cell holding the piece and every axis,
`countRun(forward) + countRun(backward) + 1` is exactly the length of the
maximal run of that piece through the cell along the axis: the interval
`[-backward, forward]` is the maximal matching interval, and any maximal
interval `[a, b]` has length `forward + backward + 1`. -/
theorem C7_contar_fichas_direccion (tb : Board) (fila col : Int) (ficha : Nat)
    (df dc : Int) (hd : (df, dc) ∈ direcciones)
    (horig : enLinea tb ficha fila col) :
    (¬ enLinea tb ficha (fila + df) (col + dc) →
      contar_fichas_direccion tb fila col ficha df dc = 0) ∧
    IsMaxRun tb ficha fila col df dc
      (-(contar_fichas_direccion tb fila col ficha (-df) (-dc) : Int))
      (contar_fichas_direccion tb fila col ficha df dc : Int) ∧
    (∀ a b : Int, IsMaxRun tb ficha fila col df dc a b →
      (contar_fichas_direccion tb fila col ficha df dc : Int)
        + (contar_fichas_direccion tb fila col ficha (-df) (-dc) : Int) + 1
        = b - a + 1) := by
  have hf : 0 < numFilas tb := by
    obtain ⟨h1, h2, _⟩ := horig; omega
  have hc : 0 < numCols tb := by
    obtain ⟨_, _, h3, h4, _⟩ := horig; omega
  have hne : tb.isEmpty = false := by
    cases tb with
    | nil => simp [numFilas] at hf
    | cons r rs => rfl
  have hd4 : (df = 0 ∧ dc = 1) ∨ (df = 1 ∧ dc = 0) ∨ (df = 1 ∧ dc = 1)
      ∨ (df = 1 ∧ dc = -1) := by
    simpa [direcciones, Prod.ext_iff] using hd
  have hdir : df ≠ 0 ∨ dc ≠ 0 := by
    rcases hd4 with ⟨_, h⟩ | ⟨h, _⟩ | ⟨h, _⟩ | ⟨h, _⟩ <;> omega
  have hdirneg : -df ≠ 0 ∨ -dc ≠ 0 := by
    rcases hdir with h | h
    · exact Or.inl (by omega)
    · exact Or.inr (by omega)
  obtain ⟨hfwd, hfwdstop⟩ := contar_fichas_spec tb fila col ficha df dc hdir hf hc
  obtain ⟨hbwd, hbwdstop⟩ := contar_fichas_spec tb fila col ficha (-df) (-dc) hdirneg hf hc
  have hmax : IsMaxRun tb ficha fila col df dc
      (-(contar_fichas_direccion tb fila col ficha (-df) (-dc) : Int))
      (contar_fichas_direccion tb fila col ficha df dc : Int) := by
    refine ⟨by omega, by positivity, ?_, ?_, ?_⟩
    · intro k hk1 hk2
      rcases Int.lt_trichotomy k 0 with hk | hk | hk
      · have hj1 : 1 ≤ (-k).toNat := by omega
        have hj2 : (-k).toNat ≤ contar_fichas_direccion tb fila col ficha (-df) (-dc) := by
          omega
        have hstep := hbwd (-k).toNat hj1 hj2
        have hcast : (((-k).toNat : Nat) : Int) = -k := by omega
        have heq1 : fila + ↑(-k).toNat * -df = fila + k * df := by rw [hcast]; ring
        have heq2 : col + ↑(-k).toNat * -dc = col + k * dc := by rw [hcast]; ring
        rwa [heq1, heq2] at hstep
      · subst hk
        simpa using horig
      · have hj2 : k.toNat ≤ contar_fichas_direccion tb fila col ficha df dc := by omega
        have hstep := hfwd k.toNat (by omega) hj2
        have hcast : ((k.toNat : Nat) : Int) = k := by omega
        rw [hcast] at hstep
        exact hstep
    · have heq1 : fila + (↑(contar_fichas_direccion tb fila col ficha (-df) (-dc)) + 1) * -df
          = fila + (-↑(contar_fichas_direccion tb fila col ficha (-df) (-dc)) - 1) * df := by
        ring
      have heq2 : col + (↑(contar_fichas_direccion tb fila col ficha (-df) (-dc)) + 1) * -dc
          = col + (-↑(contar_fichas_direccion tb fila col ficha (-df) (-dc)) - 1) * dc := by
        ring
      rw [heq1, heq2] at hbwdstop
      have heq3 : -↑(contar_fichas_direccion tb fila col ficha (-df) (-dc)) - 1
          = -(contar_fichas_direccion tb fila col ficha (-df) (-dc) : Int) - 1 := rfl
      simpa using hbwdstop
    · simpa using hfwdstop
  refine ⟨?_, hmax, ?_⟩
  · intro hnot
    unfold contar_fichas_direccion
    rw [if_neg (by simp [hne])]
    exact contarAux_cero tb ficha df dc _ (fila + df) (col + dc) (by omega) hnot
  · intro a b hab
    obtain ⟨hA, hB⟩ := isMaxRun_unique tb ficha fila col df dc _ _ a b hmax hab
    omega

/-- Claim C7 witness: the middle circle of the three-in-a-row board, on the
horizontal axis — one circle on each side, maximal run `[-1, 1]` of length 3. -/
theorem C7_contar_fichas_direccion_witness :
    (¬ enLinea tableroTresEnLinea 1 (5 + 0) (1 + 1) →
      contar_fichas_direccion tableroTresEnLinea 5 1 1 0 1 = 0) ∧
    IsMaxRun tableroTresEnLinea 1 5 1 0 1
      (-(contar_fichas_direccion tableroTresEnLinea 5 1 1 (-0) (-1) : Int))
      (contar_fichas_direccion tableroTresEnLinea 5 1 1 0 1 : Int) ∧
    (∀ a b : Int, IsMaxRun tableroTresEnLinea 1 5 1 0 1 a b →
      (contar_fichas_direccion tableroTresEnLinea 5 1 1 0 1 : Int)
        + (contar_fichas_direccion tableroTresEnLinea 5 1 1 (-0) (-1) : Int) + 1
        = b - a + 1) :=
  C7_contar_fichas_direccion tableroTresEnLinea 5 1 1 0 1 (by decide) (by decide)

/-! ### Availability and the level-2 heuristic -/

lemma disponible_elim (tb : Board) (colI : Int)
    (h : columna_esta_disponible tb colI = true) :
    tb.isEmpty = false ∧ 0 ≤ colI ∧ colI < (numCols tb : Int) ∧
      getCell tb 0 colI.toNat = CASILLA_VACIA := by
  unfold columna_esta_disponible at h
  by_cases he : tb.isEmpty = true
  · rw [if_pos he] at h; cases h
  rw [if_neg he] at h
  by_cases hr : colI < 0 ∨ (numCols tb : Int) ≤ colI
  · rw [if_pos hr] at h; cases h
  rw [if_neg hr] at h
  exact ⟨by simpa using he, by omega, by omega, by simpa using h⟩

lemma mem_disponibles {tb : Board} {col : Nat}
    (h : col ∈ obtener_columnas_disponibles tb) :
    col < numCols tb ∧ columna_esta_disponible tb ↑col = true := by
  unfold obtener_columnas_disponibles at h
  by_cases he : tb.isEmpty = true
  · rw [if_pos he] at h; cases h
  · rw [if_neg he] at h
    obtain ⟨hmem, hp⟩ := List.mem_filter.mp h
    exact ⟨List.mem_range.mp hmem, hp⟩

lemma disponibles_pairwise (tb : Board) :
    (obtener_columnas_disponibles tb).Pairwise (· < ·) := by
  unfold obtener_columnas_disponibles
  by_cases he : tb.isEmpty = true
  · rw [if_pos he]; exact List.Pairwise.nil
  · rw [if_neg he]; exact (List.pairwise_lt_range _).filter _

lemma find?_least {l : List Nat} (hpw : l.Pairwise (· < ·)) {p : Nat → Bool} {c : Nat}
    (h : l.find? p = some c) : ∀ b ∈ l, p b = true → c ≤ b := by
  intro b hb hpb
  rcases find?_rel hpw h b hb hpb with rfl | hlt
  · exact le_refl _
  · omega

/-- Simulating a drop into an available column always scores at least 1: the
simulated piece itself is counted on every axis. -/
lemma fichas_en_linea_pos (tb : Board) (ficha col : Nat)
    (hficha : ficha = FICHA_CIRCULO ∨ ficha = FICHA_EQUIS)
    (hdisp : columna_esta_disponible tb ↑col = true) :
    1 ≤ (fichas_en_linea tb ficha ↑col).1 := by
  obtain ⟨hne, _, hcol, htop⟩ := disponible_elim tb ↑col hdisp
  rw [Int.toNat_natCast] at htop
  unfold fichas_en_linea
  rw [if_neg (by simp [hne]), if_neg (by omega),
    if_neg (by rcases hficha with h | h <;> simp [h, FICHA_CIRCULO, FICHA_EQUIS])]
  rw [Int.toNat_natCast]
  have hf0 : 0 < numFilas tb := by
    cases tb with
    | nil => simp at hne
    | cons r rs => simp [numFilas]
  obtain ⟨fl, hfl⟩ := filaLibre_isSome hf0 htop
  rw [hfl]
  simp only [direcciones, List.foldl_cons, List.foldl_nil]
  omega

lemma regla3_paso_cases (tb : Board) (ficha : Nat) (acc : List Nat × Nat) (col : Nat) :
    (regla3_paso tb ficha acc col = ([col], (fichas_en_linea tb ficha ↑col).1) ∧
      acc.2 < (fichas_en_linea tb ficha ↑col).1) ∨
    regla3_paso tb ficha acc col = (acc.1 ++ [col], acc.2) ∨
    regla3_paso tb ficha acc col = acc := by
  simp only [regla3_paso]
  split_ifs with h1 h2
  · exact Or.inl ⟨rfl, h1⟩
  · exact Or.inr (Or.inl rfl)
  · exact Or.inr (Or.inr rfl)

lemma regla3_subset (tb : Board) (ficha : Nat) (S : List Nat) :
    ∀ (l : List Nat) (acc : List Nat × Nat),
      (∀ x ∈ acc.1, x ∈ S) → (∀ x ∈ l, x ∈ S) →
      ∀ x ∈ (l.foldl (regla3_paso tb ficha) acc).1, x ∈ S := by
  intro l
  induction l with
  | nil => intro acc hacc _ x hx; exact hacc x hx
  | cons c cs ih =>
    intro acc hacc hl x hx
    rw [List.foldl_cons] at hx
    refine ih (regla3_paso tb ficha acc c) ?_
      (fun y hy => hl y (List.mem_cons_of_mem c hy)) x hx
    intro y hy
    rcases regla3_paso_cases tb ficha acc c with ⟨heq, _⟩ | heq | heq
    · rw [heq] at hy
      simp only [List.mem_singleton] at hy
      rw [hy]
      exact hl c (List.mem_cons_self c cs)
    · rw [heq] at hy
      simp only [List.mem_append, List.mem_singleton] at hy
      rcases hy with hy | hy
      · exact hacc y hy
      · rw [hy]; exact hl c (List.mem_cons_self c cs)
    · rw [heq] at hy
      exact hacc y hy

lemma regla3_invariante (tb : Board) (ficha : Nat) :
    ∀ (l : List Nat) (acc : List Nat × Nat), acc.1 ≠ [] → 1 ≤ acc.2 →
      (l.foldl (regla3_paso tb ficha) acc).1 ≠ [] ∧
        1 ≤ (l.foldl (regla3_paso tb ficha) acc).2 := by
  intro l
  induction l with
  | nil => intro acc h1 h2; exact ⟨h1, h2⟩
  | cons c cs ih =>
    intro acc h1 h2
    rw [List.foldl_cons]
    refine ih _ ?_ ?_
    · rcases regla3_paso_cases tb ficha acc c with ⟨heq, _⟩ | heq | heq
      · rw [heq]; simp
      · rw [heq]; simp
      · rw [heq]; exact h1
    · rcases regla3_paso_cases tb ficha acc c with ⟨heq, hlt⟩ | heq | heq
      · rw [heq]; simpa using by omega
      · rw [heq]; exact h2
      · rw [heq]; exact h2

/-- Rule 3 starting from `([], 0)` over a nonempty list of available columns
ends with a nonempty candidate list and a strictly positive maximum. -/
lemma regla3_inicio (tb : Board) (ficha : Nat) (l : List Nat) (hne : l ≠ [])
    (hficha : ficha = FICHA_CIRCULO ∨ ficha = FICHA_EQUIS)
    (hl : ∀ c ∈ l, columna_esta_disponible tb ↑c = true) :
    (l.foldl (regla3_paso tb ficha) ([], 0)).1 ≠ [] ∧
      1 ≤ (l.foldl (regla3_paso tb ficha) ([], 0)).2 := by
  cases l with
  | nil => exact absurd rfl hne
  | cons c cs =>
    rw [List.foldl_cons]
    have hpos : 1 ≤ (fichas_en_linea tb ficha ↑c).1 :=
      fichas_en_linea_pos tb ficha c hficha (hl c (List.mem_cons_self c cs))
    have hstep : regla3_paso tb ficha ([], 0) c
        = ([c], (fichas_en_linea tb ficha ↑c).1) := by
      simp only [regla3_paso]
      rw [if_pos (by simpa using hpos)]
    rw [hstep]
    exact regla3_invariante tb ficha cs _ (by simp) (by simpa using hpos)

lemma ia2_eq_regla1 (choice : List Nat → Nat) (tb : Board)
    (ficha_ia ficha_jugador : Nat) (n : Int) (c : Nat)
    (hne : obtener_columnas_disponibles tb ≠ [])
    (hv : (obtener_columnas_disponibles tb).find? (fun col : Nat =>
      decide (n ≤ ((fichas_en_linea tb ficha_ia ↑col).1 : Int))) = some c) :
    ia_nivel_2 choice tb ficha_ia ficha_jugador n = ↑c := by
  simp only [ia_nivel_2]
  rw [if_neg (by rw [List.isEmpty_iff]; exact hne)]
  simp only [hv]

lemma ia2_eq_regla2 (choice : List Nat → Nat) (tb : Board)
    (ficha_ia ficha_jugador : Nat) (n : Int) (c : Nat)
    (hne : obtener_columnas_disponibles tb ≠ [])
    (hv1 : (obtener_columnas_disponibles tb).find? (fun col : Nat =>
      decide (n ≤ ((fichas_en_linea tb ficha_ia ↑col).1 : Int))) = none)
    (hv2 : (obtener_columnas_disponibles tb).find? (fun col : Nat =>
      decide (n ≤ ((fichas_en_linea tb ficha_jugador ↑col).1 : Int))) = some c) :
    ia_nivel_2 choice tb ficha_ia ficha_jugador n = ↑c := by
  simp only [ia_nivel_2]
  rw [if_neg (by rw [List.isEmpty_iff]; exact hne)]
  simp only [hv1, hv2]

lemma ia2_eq_regla3 (choice : List Nat → Nat) (tb : Board)
    (ficha_ia ficha_jugador : Nat) (n : Int)
    (hne : obtener_columnas_disponibles tb ≠ [])
    (hv1 : (obtener_columnas_disponibles tb).find? (fun col : Nat =>
      decide (n ≤ ((fichas_en_linea tb ficha_ia ↑col).1 : Int))) = none)
    (hv2 : (obtener_columnas_disponibles tb).find? (fun col : Nat =>
      decide (n ≤ ((fichas_en_linea tb ficha_jugador ↑col).1 : Int))) = none)
    (hguard : ((obtener_columnas_disponibles tb).foldl
        (regla3_paso tb ficha_ia) ([], 0)).1 ≠ [] ∧
      0 < ((obtener_columnas_disponibles tb).foldl
        (regla3_paso tb ficha_ia) ([], 0)).2) :
    ia_nivel_2 choice tb ficha_ia ficha_jugador n
      = ↑(choice ((obtener_columnas_disponibles tb).foldl
          (regla3_paso tb ficha_ia) ([], 0)).1) := by
  simp only [ia_nivel_2]
  rw [if_neg (by rw [List.isEmpty_iff]; exact hne)]
  simp only [hv1, hv2]
  rw [if_pos hguard]

lemma ia2_eq_regla4 (choice : List Nat → Nat) (tb : Board)
    (ficha_ia ficha_jugador : Nat) (n : Int)
    (hne : obtener_columnas_disponibles tb ≠ [])
    (hv1 : (obtener_columnas_disponibles tb).find? (fun col : Nat =>
      decide (n ≤ ((fichas_en_linea tb ficha_ia ↑col).1 : Int))) = none)
    (hv2 : (obtener_columnas_disponibles tb).find? (fun col : Nat =>
      decide (n ≤ ((fichas_en_linea tb ficha_jugador ↑col).1 : Int))) = none)
    (hguard : ¬(((obtener_columnas_disponibles tb).foldl
        (regla3_paso tb ficha_ia) ([], 0)).1 ≠ [] ∧
      0 < ((obtener_columnas_disponibles tb).foldl
        (regla3_paso tb ficha_ia) ([], 0)).2)) :
    ia_nivel_2 choice tb ficha_ia ficha_jugador n
      = ↑(choice (obtener_columnas_disponibles tb)) := by
  simp only [ia_nivel_2]
  rw [if_neg (by rw [List.isEmpty_iff]; exact hne)]
  simp only [hv1, hv2]
  rw [if_neg hguard]

/-- Claim C4: `ia_nivel_2` applies Win before Block with an ascending-order
tie-break.  If some available column lets the AI reach the win length, it
returns the smallest such column; otherwise, if some available column lets the
opponent reach the win length, it returns the smallest such column — whatever
the AI's own run lengths elsewhere. -/
theorem C4_ia_nivel_2_gana_luego_bloquea (choice : List Nat → Nat) (tb : Board)
    (ficha_ia ficha_jugador : Nat) (n : Int) :
    ((∃ c ∈ obtener_columnas_disponibles tb,
        n ≤ ((fichas_en_linea tb ficha_ia ↑c).1 : Int)) →
      ∃ cw ∈ obtener_columnas_disponibles tb,
        ia_nivel_2 choice tb ficha_ia ficha_jugador n = ↑cw ∧
        n ≤ ((fichas_en_linea tb ficha_ia ↑cw).1 : Int) ∧
        ∀ c ∈ obtener_columnas_disponibles tb,
          n ≤ ((fichas_en_linea tb ficha_ia ↑c).1 : Int) → cw ≤ c) ∧
    ((∀ c ∈ obtener_columnas_disponibles tb,
        ((fichas_en_linea tb ficha_ia ↑c).1 : Int) < n) →
      (∃ c ∈ obtener_columnas_disponibles tb,
        n ≤ ((fichas_en_linea tb ficha_jugador ↑c).1 : Int)) →
      ∃ cb ∈ obtener_columnas_disponibles tb,
        ia_nivel_2 choice tb ficha_ia ficha_jugador n = ↑cb ∧
        n ≤ ((fichas_en_linea tb ficha_jugador ↑cb).1 : Int) ∧
        ∀ c ∈ obtener_columnas_disponibles tb,
          n ≤ ((fichas_en_linea tb ficha_jugador ↑c).1 : Int) → cb ≤ c) := by
  constructor
  · rintro ⟨c, hc, hcw⟩
    have hne : obtener_columnas_disponibles tb ≠ [] := by
      intro h; rw [h] at hc; cases hc
    cases hv : (obtener_columnas_disponibles tb).find? (fun col : Nat =>
        decide (n ≤ ((fichas_en_linea tb ficha_ia ↑col).1 : Int))) with
    | none =>
      have hcon := List.find?_eq_none.mp hv c hc
      simp only [decide_eq_true_eq] at hcon
      exact absurd hcw hcon
    | some cw =>
      refine ⟨cw, List.mem_of_find?_eq_some hv,
        ia2_eq_regla1 choice tb ficha_ia ficha_jugador n cw hne hv, ?_, ?_⟩
      · simpa using List.find?_some hv
      · intro b hb hpb
        exact find?_least (disponibles_pairwise tb) hv b hb (by simpa using hpb)
  · intro hnowin
    rintro ⟨c, hc, hcb⟩
    have hne : obtener_columnas_disponibles tb ≠ [] := by
      intro h; rw [h] at hc; cases hc
    have hv1 : (obtener_columnas_disponibles tb).find? (fun col : Nat =>
        decide (n ≤ ((fichas_en_linea tb ficha_ia ↑col).1 : Int))) = none := by
      rw [List.find?_eq_none]
      intro x hx
      simp only [decide_eq_true_eq]
      exact not_le.mpr (hnowin x hx)
    cases hv2 : (obtener_columnas_disponibles tb).find? (fun col : Nat =>
        decide (n ≤ ((fichas_en_linea tb ficha_jugador ↑col).1 : Int))) with
    | none =>
      have hcon := List.find?_eq_none.mp hv2 c hc
      simp only [decide_eq_true_eq] at hcon
      exact absurd hcb hcon
    | some cb =>
      refine ⟨cb, List.mem_of_find?_eq_some hv2,
        ia2_eq_regla2 choice tb ficha_ia ficha_jugador n cb hne hv1 hv2, ?_, ?_⟩
      · simpa using List.find?_some hv2
      · intro b hb hpb
        exact find?_least (disponibles_pairwise tb) hv2 b hb (by simpa using hpb)

/-- Claim C4 witness: the spec's Block scenario — circles have three in a row
on the bottom (win length 4), crosses have no winning drop, so the cross AI
returns the blocking column 3. -/
theorem C4_ia_nivel_2_gana_luego_bloquea_witness :
    ∃ cb ∈ obtener_columnas_disponibles tableroTresEnLinea,
      ia_nivel_2 (fun l => l.headD 0) tableroTresEnLinea FICHA_EQUIS FICHA_CIRCULO 4 = ↑cb ∧
      (4 : Int) ≤ ((fichas_en_linea tableroTresEnLinea FICHA_CIRCULO ↑cb).1 : Int) ∧
      ∀ c ∈ obtener_columnas_disponibles tableroTresEnLinea,
        (4 : Int) ≤ ((fichas_en_linea tableroTresEnLinea FICHA_CIRCULO ↑c).1 : Int) →
          cb ≤ c :=
  (C4_ia_nivel_2_gana_luego_bloquea (fun l => l.headD 0) tableroTresEnLinea
      FICHA_EQUIS FICHA_CIRCULO 4).2 (by decide) ⟨3, by decide, by decide⟩

/-- Claim C8: both AIs return the sentinel `-1` exactly when no column is
available, and otherwise return a member of the available columns; for a
nonempty board, no column is available exactly when the whole top row is
occupied. -/
theorem C8_ias_sentinela (choice : List Nat → Nat)
    (hchoice : ∀ l : List Nat, l ≠ [] → choice l ∈ l)
    (tb : Board) (ficha_ia ficha_jugador : Nat) (n : Int) :
    (ia_nivel_1 choice tb = -1 ↔ obtener_columnas_disponibles tb = []) ∧
    (obtener_columnas_disponibles tb ≠ [] →
      ∃ c ∈ obtener_columnas_disponibles tb, ia_nivel_1 choice tb = ↑c) ∧
    (ia_nivel_2 choice tb ficha_ia ficha_jugador n = -1 ↔
      obtener_columnas_disponibles tb = []) ∧
    (obtener_columnas_disponibles tb ≠ [] →
      ∃ c ∈ obtener_columnas_disponibles tb,
        ia_nivel_2 choice tb ficha_ia ficha_jugador n = ↑c) ∧
    (tb.isEmpty = false →
      (obtener_columnas_disponibles tb = [] ↔
        ∀ c, c < numCols tb → getCell tb 0 c ≠ CASILLA_VACIA)) := by
  have h1mem : obtener_columnas_disponibles tb ≠ [] →
      ∃ c ∈ obtener_columnas_disponibles tb, ia_nivel_1 choice tb = ↑c := by
    intro hne
    refine ⟨choice (obtener_columnas_disponibles tb), hchoice _ hne, ?_⟩
    simp only [ia_nivel_1]
    rw [if_neg (by rw [List.isEmpty_iff]; exact hne)]
  have h2mem : obtener_columnas_disponibles tb ≠ [] →
      ∃ c ∈ obtener_columnas_disponibles tb,
        ia_nivel_2 choice tb ficha_ia ficha_jugador n = ↑c := by
    intro hne
    cases hv1 : (obtener_columnas_disponibles tb).find? (fun col : Nat =>
        decide (n ≤ ((fichas_en_linea tb ficha_ia ↑col).1 : Int))) with
    | some c =>
      exact ⟨c, List.mem_of_find?_eq_some hv1,
        ia2_eq_regla1 choice tb ficha_ia ficha_jugador n c hne hv1⟩
    | none =>
      cases hv2 : (obtener_columnas_disponibles tb).find? (fun col : Nat =>
          decide (n ≤ ((fichas_en_linea tb ficha_jugador ↑col).1 : Int))) with
      | some c =>
        exact ⟨c, List.mem_of_find?_eq_some hv2,
          ia2_eq_regla2 choice tb ficha_ia ficha_jugador n c hne hv1 hv2⟩
      | none =>
        by_cases hg : ((obtener_columnas_disponibles tb).foldl
            (regla3_paso tb ficha_ia) ([], 0)).1 ≠ [] ∧
            0 < ((obtener_columnas_disponibles tb).foldl
              (regla3_paso tb ficha_ia) ([], 0)).2
        · refine ⟨choice ((obtener_columnas_disponibles tb).foldl
              (regla3_paso tb ficha_ia) ([], 0)).1, ?_,
            ia2_eq_regla3 choice tb ficha_ia ficha_jugador n hne hv1 hv2 hg⟩
          refine regla3_subset tb ficha_ia (obtener_columnas_disponibles tb)
            (obtener_columnas_disponibles tb) ([], 0) ?_ (fun x hx => hx) _
            (hchoice _ hg.1)
          intro x hx
          cases hx
        · exact ⟨choice (obtener_columnas_disponibles tb), hchoice _ hne,
            ia2_eq_regla4 choice tb ficha_ia ficha_jugador n hne hv1 hv2 hg⟩
  refine ⟨?_, h1mem, ?_, h2mem, ?_⟩
  · constructor
    · intro h
      by_contra hne
      obtain ⟨c, _, heq⟩ := h1mem hne
      rw [heq] at h
      omega
    · intro h
      simp only [ia_nivel_1]
      rw [if_pos (by rw [List.isEmpty_iff]; exact h)]
  · constructor
    · intro h
      by_contra hne
      obtain ⟨c, _, heq⟩ := h2mem hne
      rw [heq] at h
      omega
    · intro h
      simp only [ia_nivel_2]
      rw [if_pos (by rw [List.isEmpty_iff]; exact h)]
  · intro hne
    unfold obtener_columnas_disponibles
    rw [if_neg (by simp [hne]), List.filter_eq_nil_iff]
    constructor
    · intro hall c hc hcell
      have hcon := hall c (List.mem_range.mpr hc)
      apply hcon
      unfold columna_esta_disponible
      rw [if_neg (by simp [hne]), if_neg (by omega)]
      simp [Int.toNat_natCast, hcell]
    · intro hall x hx hdisp
      obtain ⟨_, _, hlt, hcell⟩ := disponible_elim tb ↑x hdisp
      rw [Int.toNat_natCast] at hcell
      exact hall x (by omega) hcell

/-- Claim C8 witness: the empty 6 × 7 board — both AIs pick an available
column (here via the head-of-list choice oracle) and the sentinel equivalences
hold. -/
theorem C8_ias_sentinela_witness :
    (ia_nivel_1 (fun l => l.headD 0) tableroVacio = -1 ↔
      obtener_columnas_disponibles tableroVacio = []) ∧
    (obtener_columnas_disponibles tableroVacio ≠ [] →
      ∃ c ∈ obtener_columnas_disponibles tableroVacio,
        ia_nivel_1 (fun l => l.headD 0) tableroVacio = ↑c) ∧
    (ia_nivel_2 (fun l => l.headD 0) tableroVacio FICHA_EQUIS FICHA_CIRCULO 4 = -1 ↔
      obtener_columnas_disponibles tableroVacio = []) ∧
    (obtener_columnas_disponibles tableroVacio ≠ [] →
      ∃ c ∈ obtener_columnas_disponibles tableroVacio,
        ia_nivel_2 (fun l => l.headD 0) tableroVacio FICHA_EQUIS FICHA_CIRCULO 4 = ↑c) ∧
    (tableroVacio.isEmpty = false →
      (obtener_columnas_disponibles tableroVacio = [] ↔
        ∀ c, c < numCols tableroVacio → getCell tableroVacio 0 c ≠ CASILLA_VACIA)) :=
  C8_ias_sentinela (fun l => l.headD 0) headD_mem tableroVacio FICHA_EQUIS FICHA_CIRCULO 4

/-- Claim C9: simulating a drop of a valid piece into any available column
scores at least 1 (the simulated piece itself counts on every axis), so when
`ia_nivel_2` falls through to its Maximize rule the tracked maximum is
strictly positive and the candidate list nonempty, and the Rule-4 random
fallback over all available columns is never executed: the result comes from
the Maximize candidates. -/
theorem C9_simulacion_positiva :
    (∀ (tb : Board) (ficha col : Nat),
      (ficha = FICHA_CIRCULO ∨ ficha = FICHA_EQUIS) →
      columna_esta_disponible tb ↑col = true →
      1 ≤ (fichas_en_linea tb ficha ↑col).1) ∧
    (∀ (choice : List Nat → Nat) (tb : Board) (ficha_ia ficha_jugador : Nat) (n : Int),
      (ficha_ia = FICHA_CIRCULO ∨ ficha_ia = FICHA_EQUIS) →
      obtener_columnas_disponibles tb ≠ [] →
      (obtener_columnas_disponibles tb).find? (fun col : Nat =>
        decide (n ≤ ((fichas_en_linea tb ficha_ia ↑col).1 : Int))) = none →
      (obtener_columnas_disponibles tb).find? (fun col : Nat =>
        decide (n ≤ ((fichas_en_linea tb ficha_jugador ↑col).1 : Int))) = none →
      ((obtener_columnas_disponibles tb).foldl (regla3_paso tb ficha_ia) ([], 0)).1 ≠ [] ∧
      1 ≤ ((obtener_columnas_disponibles tb).foldl (regla3_paso tb ficha_ia) ([], 0)).2 ∧
      ia_nivel_2 choice tb ficha_ia ficha_jugador n =
        ↑(choice ((obtener_columnas_disponibles tb).foldl
            (regla3_paso tb ficha_ia) ([], 0)).1)) := by
  refine ⟨fun tb ficha col hficha hdisp => fichas_en_linea_pos tb ficha col hficha hdisp, ?_⟩
  intro choice tb ficha_ia ficha_jugador n hficha hne hv1 hv2
  have hl : ∀ c ∈ obtener_columnas_disponibles tb,
      columna_esta_disponible tb ↑c = true :=
    fun c hc => (mem_disponibles hc).2
  obtain ⟨hmne, hmpos⟩ := regla3_inicio tb ficha_ia _ hne hficha hl
  exact ⟨hmne, hmpos,
    ia2_eq_regla3 choice tb ficha_ia ficha_jugador n hne hv1 hv2 ⟨hmne, by omega⟩⟩

/-- Claim C9 witness: on the empty board (win length 4) neither rule 1 nor
rule 2 fires, the Maximize maximum is positive, and the move is drawn from the
Maximize candidates. -/
theorem C9_simulacion_positiva_witness :
    1 ≤ (fichas_en_linea tableroVacio FICHA_CIRCULO 0).1 ∧
    (((obtener_columnas_disponibles tableroVacio).foldl
        (regla3_paso tableroVacio FICHA_EQUIS) ([], 0)).1 ≠ [] ∧
      1 ≤ ((obtener_columnas_disponibles tableroVacio).foldl
        (regla3_paso tableroVacio FICHA_EQUIS) ([], 0)).2 ∧
      ia_nivel_2 (fun l => l.headD 0) tableroVacio FICHA_EQUIS FICHA_CIRCULO 4 =
        ↑((fun l : List Nat => l.headD 0) ((obtener_columnas_disponibles tableroVacio).foldl
            (regla3_paso tableroVacio FICHA_EQUIS) ([], 0)).1)) :=
  ⟨C9_simulacion_positiva.1 tableroVacio FICHA_CIRCULO 0 (Or.inl rfl) (by decide),
   C9_simulacion_positiva.2 (fun l => l.headD 0) tableroVacio FICHA_EQUIS FICHA_CIRCULO 4
     (Or.inr rfl) (by decide) (by decide) (by decide)⟩

end ConectaN
